import Mathlib

/-!
Shallow embedding of the install-plan resolver of `lux-cli`
(`src/lux-cli/src/utils/install.rs`, function `apply_build_behaviour`).

The resolver consumes a list of package requirements, a pin state, a force
flag and an installation tree, and produces a list of install
specifications.  The tree and the confirmation prompt are external
collaborators; they are modelled as oracles supplied to the embedding.
The source's only side effect is the confirmation prompt, so the embedding
additionally returns the list of prompt invocations (message and default
answer), which lets "never prompts" properties be stated as equalities.
Fallible calls — `tree.lockfile()?`, the `expect` on the tree match query
and the `expect` on the prompt (both of which panic and thereby abort the
whole call) — are modelled with `Except`: any failure aborts the
resolution with the underlying error and no partial result.
-/

/-- A package requirement (a name plus a version constraint), kept opaque. -/
abbrev PackageReq := String

/-- An opaque identifier of a package instance recorded in the lockfile. -/
abbrev LocalPackageId := Nat

/-- An error surfaced by the tree store or by the confirmation prompt. -/
abbrev Err := String

/-- Pin state of an installed package and of a resolution. -/
inductive PinnedState
  | Pinned
  | Unpinned
deriving DecidableEq, BEq, Repr

/-- Modelled from the spec: `lux_lib`'s build behaviour, a fresh install or a
forced reinstall (the spec's Fresh/Force). -/
inductive BuildBehaviour
  | Fresh
  | Force
deriving DecidableEq, Repr

/-- Modelled from the spec: `BuildBehaviour::from(bool)` — `Force` when the
effective force flag is true, `Fresh` otherwise. -/
def BuildBehaviour.fromBool (b : Bool) : BuildBehaviour :=
  if b then .Force else .Fresh

/-- Modelled from the spec: entry type of an installed package — a top-level,
user-requested entrypoint or a transitive dependency. -/
inductive EntryType
  | Entrypoint
  | DependencyOnly
deriving DecidableEq, Repr

/-- Modelled from the spec: the optionality marker of an install
specification. -/
inductive OptState
  | Required
  | Optional
deriving DecidableEq, Repr

/-- Modelled from the spec: the lockfile exposes `is_entrypoint(id) -> bool`,
true when the identity is a top-level, user-requested installation. -/
structure Lockfile where
  is_entrypoint : LocalPackageId → Bool

/-- An installed package as seen by the match predicate: it exposes
`pinned()`. -/
structure LocalPackage where
  id : LocalPackageId
  pinned : PinnedState
deriving DecidableEq, Repr

/-- Modelled from the spec: the tree's match-query result, a tagged variant
with three cases — no match, exactly one match, or multiple matches. -/
inductive RockMatches
  | NotFound (req : PackageReq)
  | Single (id : LocalPackageId)
  | Many (ids : List LocalPackageId)
deriving DecidableEq, Repr

/-- The installation tree as consumed by the resolver: a fallible lockfile
accessor and a fallible match query taking a predicate on installed
packages.  Both collaborators are oracles; a concrete tree over a list of
installed packages is `InstallationTree.ofRocks` below. -/
structure InstallationTree where
  lockfile : Except Err Lockfile
  match_rocks_and : PackageReq → (LocalPackage → Bool) → Except Err RockMatches

/-- Modelled from the spec: the resolver's output record, as assembled by the
`PackageInstallSpec` builder chain at the call site — requirement, build
behaviour, pin target, entry type and optionality. -/
structure PackageInstallSpec where
  req : PackageReq
  build_behaviour : BuildBehaviour
  pin : PinnedState
  entry_type : EntryType
  opt : OptState
deriving DecidableEq, Repr

/-- One confirmation-prompt invocation: the message shown and the default
answer offered. -/
structure PromptCall where
  message : String
  defaultAnswer : Bool
deriving DecidableEq, Repr

/-- A prompt oracle: given the message and the default answer, it returns the
user's yes/no decision, or fails (e.g. no interactive surface). -/
abbrev Prompt := String → Bool → Except Err Bool

/-- The source's conversion of the match result into `existing_packages`:
`Single` contributes one identity, `Many` all of them, anything else none. -/
def existingPackages : RockMatches → List LocalPackageId
  | .Single id => [id]
  | .Many ids => ids
  | _ => []

/-- The effective force flag computed by the resolver:
`force || existing_packages.iter().all(|pkg_id| !lockfile.is_entrypoint(pkg_id))`.
Note that the `all` is vacuously true on an empty `existing_packages`. -/
def effectiveForce (force : Bool) (lockfile : Lockfile)
    (existing : List LocalPackageId) : Bool :=
  force || existing.all fun pkg_id => !(lockfile.is_entrypoint pkg_id)

/-- The overwrite-confirmation message built for requirement `req`. -/
def overwriteMsg (req : PackageReq) : String :=
  "Package " ++ req ++ " already exists. Overwrite?"

/-- Modelled from the spec: the install specification emitted for `req` —
the builder chain sets the requirement, the behaviour, pin = `pin`,
entry type `Entrypoint` and optionality `Required`. -/
def mkSpec (req : PackageReq) (b : BuildBehaviour) (pin : PinnedState) :
    PackageInstallSpec :=
  ⟨req, b, pin, .Entrypoint, .Required⟩

/-- One iteration of the resolver's `filter_map` closure for requirement
`req`: the optional install specification together with the prompt
invocations it performed, or the underlying error when the tree query or the
prompt fails (the source panics there via `expect`, aborting the call). -/
def resolveOne (tree : InstallationTree) (lockfile : Lockfile) (pin : PinnedState)
    (force : Bool) (prompt : Prompt) (req : PackageReq) :
    Except Err (Option PackageInstallSpec × List PromptCall) :=
  match tree.match_rocks_and req (fun rock => pin == rock.pinned) with
  | .error e => .error e
  | .ok m =>
    let existing_packages := existingPackages m
    let forceEff := effectiveForce force lockfile existing_packages
    if forceEff || existing_packages.isEmpty then
      .ok (some (mkSpec req (BuildBehaviour.fromBool forceEff) pin), [])
    else
      match prompt (overwriteMsg req) false with
      | .error e => .error e
      | .ok true => .ok (some (mkSpec req .Force pin), [⟨overwriteMsg req, false⟩])
      | .ok false => .ok (none, [⟨overwriteMsg req, false⟩])

/-- Sequential traversal of the requirement list, accumulating the emitted
specifications and the prompt invocations; the first failure aborts the
whole traversal, and requirements after it are not processed. -/
def applyGo (tree : InstallationTree) (lockfile : Lockfile) (pin : PinnedState)
    (force : Bool) (prompt : Prompt) :
    List PackageReq → Except Err (List PackageInstallSpec × List PromptCall)
  | [] => .ok ([], [])
  | req :: rest =>
    match resolveOne tree lockfile pin force prompt req with
    | .error e => .error e
    | .ok (specOpt, calls) =>
      match applyGo tree lockfile pin force prompt rest with
      | .error e => .error e
      | .ok (specs, moreCalls) => .ok (specOpt.toList ++ specs, calls ++ moreCalls)

/-- `apply_build_behaviour` from `lux-cli/src/utils/install.rs`, instrumented
with the list of confirmation-prompt invocations. -/
def apply_build_behaviour (package_reqs : List PackageReq) (pin : PinnedState)
    (force : Bool) (tree : InstallationTree) (prompt : Prompt) :
    Except Err (List PackageInstallSpec × List PromptCall) :=
  match tree.lockfile with
  | .error e => .error e
  | .ok lockfile => applyGo tree lockfile pin force prompt package_reqs

/-- Modelled from the spec: the installation tree's match query collects
every installed package satisfying the requirement and the supplied
predicate — all of them, not just one.  `sat` abstracts the name/version
matching, which lives outside this crate. -/
def matchedIds (rocks : List LocalPackage)
    (sat : PackageReq → LocalPackage → Bool) (req : PackageReq)
    (pred : LocalPackage → Bool) : List LocalPackageId :=
  (rocks.filter fun rock => sat req rock && pred rock).map fun rock => rock.id

/-- Modelled from the spec: the collected identities shaped as the tagged
variant — no match, exactly one match, or multiple matches. -/
def rockMatchesOf (rocks : List LocalPackage)
    (sat : PackageReq → LocalPackage → Bool) (req : PackageReq)
    (pred : LocalPackage → Bool) : RockMatches :=
  match matchedIds rocks sat req pred with
  | [] => .NotFound req
  | [id] => .Single id
  | ids => .Many ids

/-- An installation tree over a concrete list of installed packages, with an
always-readable lockfile. -/
def InstallationTree.ofRocks (rocks : List LocalPackage)
    (sat : PackageReq → LocalPackage → Bool) (lf : Lockfile) : InstallationTree :=
  ⟨.ok lf, fun req pred => .ok (rockMatchesOf rocks sat req pred)⟩

/-! ### Concrete collaborators used as witnesses and counterexamples -/

/-- A lockfile in which no identity is an entrypoint. -/
def lfNone : Lockfile := ⟨fun _ => false⟩

/-- A lockfile in which every identity is an entrypoint. -/
def lfAll : Lockfile := ⟨fun _ => true⟩

/-- A tree whose match query never finds anything. -/
def treeNoMatches : InstallationTree :=
  ⟨.ok lfNone, fun req _ => .ok (.NotFound req)⟩

/-- A tree matching requirement "A" to the single installed identity `0`
(an entrypoint in its lockfile) and nothing else. -/
def treeA : InstallationTree :=
  ⟨.ok lfAll, fun req _ => if req == "A" then .ok (.Single 0) else .ok (.NotFound req)⟩

/-- A tree matching every requirement to the single installed identity `0`,
which its lockfile does not record as an entrypoint. -/
def treeDep : InstallationTree :=
  ⟨.ok lfNone, fun _ _ => .ok (.Single 0)⟩

/-- A tree whose lockfile is unreadable. -/
def treeLockErr : InstallationTree :=
  ⟨.error "store unreadable", fun req _ => .ok (.NotFound req)⟩

/-- A tree whose match query fails. -/
def treeMatchErr : InstallationTree :=
  ⟨.ok lfNone, fun _ _ => .error "match failed"⟩

/-- A prompt oracle that always answers yes. -/
def promptYes : Prompt := fun _ _ => .ok true

/-- A prompt oracle that always answers no. -/
def promptNo : Prompt := fun _ _ => .ok false

/-- A prompt oracle with no interactive surface: every invocation fails. -/
def promptErr : Prompt := fun _ _ => .error "prompt unavailable"

/-! ### Helper lemmas -/

/-- On an empty match set the all-non-entrypoint check is vacuously true, so
the effective force flag is true whatever the caller's flag was. -/
theorem effectiveForce_nil (force : Bool) (lf : Lockfile) :
    effectiveForce force lf [] = true := by
  simp [effectiveForce]

/-- If the effective force flag is false, the match set cannot be empty. -/
theorem isEmpty_false_of_effectiveForce_false (force : Bool) (lf : Lockfile)
    (existing : List LocalPackageId)
    (h : effectiveForce force lf existing = false) :
    existing.isEmpty = false := by
  cases existing with
  | nil => rw [effectiveForce_nil] at h; cases h
  | cons a l => rfl

/-- Every specification the per-requirement step emits is the builder output
for its requirement with behaviour `Force`. -/
theorem resolveOne_some (tree : InstallationTree) (lf : Lockfile)
    (pin : PinnedState) (force : Bool) (prompt : Prompt) (req : PackageReq)
    (spec : PackageInstallSpec) (calls : List PromptCall)
    (h : resolveOne tree lf pin force prompt req = .ok (some spec, calls)) :
    spec = mkSpec req .Force pin := by
  unfold resolveOne at h
  split at h
  · cases h
  · rename_i m heq
    dsimp only at h
    split at h
    · rename_i hcond
      have hfE : effectiveForce force lf (existingPackages m) = true := by
        cases hF : effectiveForce force lf (existingPackages m)
        · rw [hF] at hcond
          simp only [Bool.false_or] at hcond
          rw [List.isEmpty_iff.mp hcond, effectiveForce_nil] at hF
          cases hF
        · rfl
      rw [hfE] at h
      simp only [BuildBehaviour.fromBool, if_pos rfl, Except.ok.injEq,
        Prod.mk.injEq, Option.some.injEq] at h
      exact h.1.symm
    · split at h
      · cases h
      · simp only [Except.ok.injEq, Prod.mk.injEq, Option.some.injEq] at h
        exact h.1.symm
      · simp only [Except.ok.injEq, Prod.mk.injEq] at h
        cases h.1

/-- The specification the resolver emits for one requirement, disregarding
prompt bookkeeping; `none` both when the requirement is dropped and when
processing it fails. -/
def emittedSpec (tree : InstallationTree) (lf : Lockfile) (pin : PinnedState)
    (force : Bool) (prompt : Prompt) (req : PackageReq) :
    Option PackageInstallSpec :=
  match resolveOne tree lf pin force prompt req with
  | .ok (specOpt, _) => specOpt
  | .error _ => none

/-- An emitted specification is the builder output for its requirement. -/
theorem emittedSpec_some (tree : InstallationTree) (lf : Lockfile)
    (pin : PinnedState) (force : Bool) (prompt : Prompt) (req : PackageReq)
    (spec : PackageInstallSpec)
    (h : emittedSpec tree lf pin force prompt req = some spec) :
    spec = mkSpec req .Force pin := by
  unfold emittedSpec at h
  cases hr : resolveOne tree lf pin force prompt req with
  | error e => rw [hr] at h; cases h
  | ok p =>
    obtain ⟨specOpt, calls⟩ := p
    rw [hr] at h
    dsimp only at h
    cases h
    exact resolveOne_some tree lf pin force prompt req spec calls hr

/-- A successful traversal produces exactly the `filterMap` of the
per-requirement emissions over the input list. -/
theorem applyGo_ok_filterMap (tree : InstallationTree) (lf : Lockfile)
    (pin : PinnedState) (force : Bool) (prompt : Prompt)
    (reqs : List PackageReq) :
    ∀ specs calls, applyGo tree lf pin force prompt reqs = .ok (specs, calls) →
      specs = reqs.filterMap (emittedSpec tree lf pin force prompt) := by
  induction reqs with
  | nil =>
    intro specs calls h
    simp only [applyGo, Except.ok.injEq, Prod.mk.injEq] at h
    simp [← h.1]
  | cons req rest ih =>
    intro specs calls h
    unfold applyGo at h
    cases hr : resolveOne tree lf pin force prompt req with
    | error e => rw [hr] at h; cases h
    | ok p =>
      obtain ⟨specOpt, pcalls⟩ := p
      rw [hr] at h
      dsimp only at h
      cases hg : applyGo tree lf pin force prompt rest with
      | error e => rw [hg] at h; cases h
      | ok q =>
        obtain ⟨specs2, calls2⟩ := q
        rw [hg] at h
        simp only [Except.ok.injEq, Prod.mk.injEq] at h
        have hrest := ih specs2 calls2 hg
        have hf : emittedSpec tree lf pin force prompt req = specOpt := by
          simp [emittedSpec, hr]
        rw [← h.1, List.filterMap_cons, hf, hrest]
        cases specOpt <;> rfl

/-! ### Claims -/

/-- C1 (counterexample): for the requirement "A", matched by nothing in the
tree, with `force = false`, the resolver emits behaviour `Force` — not
`Fresh` as the claim states — while indeed not invoking the prompt. -/
theorem C1_counterexample :
    apply_build_behaviour ["A"] .Unpinned false treeNoMatches promptErr
      = .ok ([mkSpec "A" .Force .Unpinned], [])
    ∧ (mkSpec "A" .Force .Unpinned).build_behaviour ≠ BuildBehaviour.Fresh :=
  ⟨rfl, by decide⟩

/-- C1 (amended): for every requirement for which the installation-tree query
returns no matching installed identity, when the caller's force flag is
false, the resolver emits an install specification with behaviour `Force`
(the all-matches-are-non-entrypoint check is vacuously true on the empty
match set, making the effective force flag true), and the confirmation
prompt is not invoked for that requirement. -/
theorem C1_amended (tree : InstallationTree) (lf : Lockfile)
    (pin : PinnedState) (prompt : Prompt) (req : PackageReq) (m : RockMatches)
    (hm : tree.match_rocks_and req (fun rock => pin == rock.pinned) = .ok m)
    (hempty : existingPackages m = []) :
    resolveOne tree lf pin false prompt req
      = .ok (some (mkSpec req .Force pin), []) := by
  unfold resolveOne
  rw [hm]
  dsimp only
  rw [hempty, effectiveForce_nil]
  simp [BuildBehaviour.fromBool]

/-- C1 (witness): the amended claim at the concrete requirement "B" on a tree
with no matches; the prompt oracle always fails, so the successful result
also certifies the prompt was never invoked. -/
theorem C1_witness :
    resolveOne treeNoMatches lfNone .Unpinned false promptErr "B"
      = .ok (some (mkSpec "B" .Force .Unpinned), []) :=
  C1_amended treeNoMatches lfNone .Unpinned promptErr "B" (.NotFound "B") rfl rfl

/-- C2: every install specification a successful resolution emits carries
build behaviour `Force`; a `Fresh` behaviour is never emitted, for every
requirement list, pin state, force flag, tree and prompt responder. -/
theorem C2_thm (reqs : List PackageReq) (pin : PinnedState) (force : Bool)
    (tree : InstallationTree) (prompt : Prompt)
    (out : List PackageInstallSpec) (callLog : List PromptCall)
    (h : apply_build_behaviour reqs pin force tree prompt = .ok (out, callLog)) :
    ∀ spec ∈ out, spec.build_behaviour = BuildBehaviour.Force := by
  unfold apply_build_behaviour at h
  cases hl : tree.lockfile with
  | error e => rw [hl] at h; cases h
  | ok lf =>
    rw [hl] at h
    dsimp only at h
    intro spec hspec
    rw [applyGo_ok_filterMap tree lf pin force prompt reqs out callLog h] at hspec
    obtain ⟨r, _, hre⟩ := List.mem_filterMap.mp hspec
    rw [emittedSpec_some tree lf pin force prompt r spec hre]
    rfl

/-- C2 (witness): the universal `Force` property applied to a concrete run
that emits one specification. -/
theorem C2_witness :
    (mkSpec "A" BuildBehaviour.Force PinnedState.Unpinned).build_behaviour
      = BuildBehaviour.Force :=
  C2_thm ["A"] .Unpinned false treeNoMatches promptErr
    [mkSpec "A" .Force .Unpinned] [] rfl (mkSpec "A" .Force .Unpinned) (by simp)

/-- The effective-force formula as the spec words it: the caller's flag OR
(the match set is non-empty AND every matched identity is non-entrypoint). -/
def effectiveForceSpec (force : Bool) (lockfile : Lockfile)
    (existing : List LocalPackageId) : Bool :=
  force || (!existing.isEmpty &&
    existing.all fun pkg_id => !(lockfile.is_entrypoint pkg_id))

/-- C3 (counterexample): on an empty match set with the caller's force flag
false, the resolver's effective force flag is true, while the claimed
formula (with its non-emptiness conjunct) yields false; observably, the
resolver then emits `Force` without prompting. -/
theorem C3_counterexample :
    effectiveForce false lfNone [] = true
    ∧ effectiveForceSpec false lfNone [] = false
    ∧ resolveOne treeNoMatches lfNone .Unpinned false promptErr "A"
        = .ok (some (mkSpec "A" .Force .Unpinned), []) :=
  ⟨rfl, rfl, rfl⟩

/-- C3 (amended): the resolver's effective force flag equals the caller's
force flag OR every matched identity is not an entrypoint (a condition that
is vacuously true on the empty match set); in particular, for a requirement
whose matches are all non-entrypoint and with the caller's force flag false,
the effective force flag is true, the emitted behaviour is `Force`, and the
prompt is not invoked. -/
theorem C3_amended (tree : InstallationTree) (lf : Lockfile)
    (pin : PinnedState) (prompt : Prompt) (req : PackageReq) (m : RockMatches)
    (hm : tree.match_rocks_and req (fun rock => pin == rock.pinned) = .ok m)
    (hne : ∀ id ∈ existingPackages m, lf.is_entrypoint id = false) :
    effectiveForce false lf (existingPackages m) = true
    ∧ resolveOne tree lf pin false prompt req
        = .ok (some (mkSpec req .Force pin), []) := by
  have hf : effectiveForce false lf (existingPackages m) = true := by
    simp only [effectiveForce, Bool.false_or, List.all_eq_true, Bool.not_eq_eq_eq_not,
      Bool.not_true]
    exact hne
  refine ⟨hf, ?_⟩
  unfold resolveOne
  rw [hm]
  dsimp only
  rw [hf]
  simp [BuildBehaviour.fromBool]

/-- C3 (witness): the amended claim on a tree whose only match for "A" is the
non-entrypoint identity `0`; the failing prompt oracle certifies the prompt
was never invoked. -/
theorem C3_witness :
    effectiveForce false lfNone (existingPackages (.Single 0)) = true
    ∧ resolveOne treeDep lfNone .Pinned false promptErr "A"
        = .ok (some (mkSpec "A" .Force .Pinned), []) :=
  C3_amended treeDep lfNone .Pinned promptErr "A" (.Single 0) rfl (by decide)

/-- C4: for a requirement whose match set is non-empty and contains at least
one entrypoint identity, with the caller's force flag false, the resolver
asks the confirmation prompt with message `overwriteMsg req` (that is,
"Package {req} already exists. Overwrite?") and default answer no; a yes
answer yields behaviour `Force`, a no answer drops the requirement. -/
theorem C4_thm (tree : InstallationTree) (lf : Lockfile) (pin : PinnedState)
    (prompt : Prompt) (req : PackageReq) (m : RockMatches) (ans : Bool)
    (hm : tree.match_rocks_and req (fun rock => pin == rock.pinned) = .ok m)
    (hentry : ∃ id ∈ existingPackages m, lf.is_entrypoint id = true)
    (hp : prompt (overwriteMsg req) false = .ok ans) :
    resolveOne tree lf pin false prompt req
      = .ok ((if ans then some (mkSpec req .Force pin) else none),
             [⟨overwriteMsg req, false⟩]) := by
  obtain ⟨id, hid, hie⟩ := hentry
  have hne : (existingPackages m).isEmpty = false := by
    cases he : existingPackages m with
    | nil => rw [he] at hid; cases hid
    | cons a l => rfl
  have hf : effectiveForce false lf (existingPackages m) = false := by
    simp only [effectiveForce, Bool.false_or, List.all_eq_false]
    exact ⟨id, hid, by simp [hie]⟩
  unfold resolveOne
  rw [hm]
  dsimp only
  rw [hf, hne]
  simp only [Bool.or_self, if_neg Bool.false_ne_true, hp]
  cases ans <;> rfl

/-- C4 (witness): the concrete requirement "A", matched by the entrypoint
identity `0`, with a prompt oracle answering yes: the requirement is emitted
with behaviour `Force` and the prompt call (message and default no) is
recorded. -/
theorem C4_witness :
    resolveOne treeA lfAll .Unpinned false promptYes "A"
      = .ok (some (mkSpec "A" .Force .Unpinned), [⟨overwriteMsg "A", false⟩]) := by
  have h := C4_thm treeA lfAll .Unpinned promptYes "A" (.Single 0) true rfl
    ⟨0, by decide, rfl⟩ rfl
  simpa using h

/-- With the caller's force flag true the per-requirement step, whenever it
succeeds, emits `Force` and performs no prompt call. -/
theorem resolveOne_force_true (tree : InstallationTree) (lf : Lockfile)
    (pin : PinnedState) (prompt : Prompt) (req : PackageReq)
    (x : Option PackageInstallSpec × List PromptCall)
    (h : resolveOne tree lf pin true prompt req = .ok x) :
    x = (some (mkSpec req .Force pin), []) := by
  unfold resolveOne at h
  split at h
  · cases h
  · rename_i m heq
    dsimp only at h
    split at h
    · exact (Except.ok.inj h).symm
    · rename_i hcond
      exact absurd (by simp [effectiveForce]) hcond

/-- C5: with the caller's force flag true, a successful resolution emits one
specification per requirement, each with behaviour `Force`, and the prompt
is never invoked (the prompt-call log is empty). -/
theorem C5_thm (reqs : List PackageReq) (pin : PinnedState)
    (tree : InstallationTree) (prompt : Prompt)
    (out : List PackageInstallSpec) (callLog : List PromptCall)
    (h : apply_build_behaviour reqs pin true tree prompt = .ok (out, callLog)) :
    out = reqs.map (fun r => mkSpec r .Force pin) ∧ callLog = [] := by
  unfold apply_build_behaviour at h
  cases hl : tree.lockfile with
  | error e => rw [hl] at h; cases h
  | ok lf =>
    rw [hl] at h
    dsimp only at h
    clear hl
    induction reqs generalizing out callLog with
    | nil =>
      simp only [applyGo, Except.ok.injEq, Prod.mk.injEq] at h
      simp [← h.1, ← h.2]
    | cons req rest ih =>
      unfold applyGo at h
      cases hr : resolveOne tree lf pin true prompt req with
      | error e => rw [hr] at h; cases h
      | ok p =>
        rw [hr] at h
        rw [resolveOne_force_true tree lf pin prompt req p hr] at h
        dsimp only at h
        cases hg : applyGo tree lf pin true prompt rest with
        | error e => rw [hg] at h; cases h
        | ok q =>
          obtain ⟨specs2, calls2⟩ := q
          rw [hg] at h
          simp only [Except.ok.injEq, Prod.mk.injEq] at h
          obtain ⟨h1, h2⟩ := ih specs2 calls2 hg
          rw [← h.1, ← h.2, h1, h2]
          simp [List.map_cons]

/-- C5 (witness): the force-flag property on a concrete two-requirement run
with a failing prompt oracle (so success also certifies no prompt call). -/
theorem C5_witness :
    [mkSpec "A" BuildBehaviour.Force PinnedState.Pinned,
     mkSpec "B" BuildBehaviour.Force PinnedState.Pinned]
      = (["A", "B"].map fun r => mkSpec r .Force .Pinned)
    ∧ ([] : List PromptCall) = [] :=
  C5_thm ["A", "B"] .Pinned treeA promptErr _ _ rfl

/-- C6: a successful resolution's output is exactly the `filterMap` of the
per-requirement emissions — each requirement that is not skipped contributes
exactly one specification, in place, and each skipped requirement (the user
declined the overwrite) contributes nothing; moreover every output
specification is exactly what its own requirement emits, so a skipped
requirement is entirely absent from the output. -/
theorem C6_thm (reqs : List PackageReq) (pin : PinnedState) (force : Bool)
    (tree : InstallationTree) (prompt : Prompt) (lf : Lockfile)
    (out : List PackageInstallSpec) (callLog : List PromptCall)
    (hl : tree.lockfile = .ok lf)
    (h : apply_build_behaviour reqs pin force tree prompt = .ok (out, callLog)) :
    out = reqs.filterMap (emittedSpec tree lf pin force prompt)
    ∧ ∀ spec ∈ out, emittedSpec tree lf pin force prompt spec.req = some spec := by
  unfold apply_build_behaviour at h
  rw [hl] at h
  dsimp only at h
  have hout := applyGo_ok_filterMap tree lf pin force prompt reqs out callLog h
  refine ⟨hout, ?_⟩
  intro spec hspec
  rw [hout] at hspec
  obtain ⟨r, _, hre⟩ := List.mem_filterMap.mp hspec
  have hs := emittedSpec_some tree lf pin force prompt r spec hre
  rw [hs] at hre ⊢
  exact hre

/-- C6 (witness): a concrete run in which "A" (matched by an entrypoint, user
answers no) is skipped and absent, while "B" (unmatched) is emitted. -/
theorem C6_witness :
    [mkSpec "B" BuildBehaviour.Force PinnedState.Unpinned]
      = (["A", "B"].filterMap (emittedSpec treeA lfAll .Unpinned false promptNo))
    ∧ ∀ spec ∈ [mkSpec "B" BuildBehaviour.Force PinnedState.Unpinned],
        emittedSpec treeA lfAll .Unpinned false promptNo spec.req = some spec :=
  C6_thm ["A", "B"] .Unpinned false treeA promptNo lfAll
    [mkSpec "B" .Force .Unpinned] [⟨overwriteMsg "A", false⟩] rfl rfl

/-- Projecting the requirements out of the emitted specifications turns the
`filterMap` into a `filter` of the input list. -/
theorem filterMap_map_req (tree : InstallationTree) (lf : Lockfile)
    (pin : PinnedState) (force : Bool) (prompt : Prompt)
    (reqs : List PackageReq) :
    ((reqs.filterMap (emittedSpec tree lf pin force prompt)).map fun spec => spec.req)
      = reqs.filter fun r => (emittedSpec tree lf pin force prompt r).isSome := by
  induction reqs with
  | nil => rfl
  | cons r rest ih =>
    rw [List.filterMap_cons, List.filter_cons]
    cases hr : emittedSpec tree lf pin force prompt r with
    | none => simpa using ih
    | some spec =>
      have hreq : spec.req = r := by
        rw [emittedSpec_some tree lf pin force prompt r spec hr]
        rfl
      simp [hreq, ih]

/-- C8: a successful resolution preserves input order — the requirements
carried by the output, in order, are exactly the input list restricted to
the requirements that were not dropped. -/
theorem C8_thm (reqs : List PackageReq) (pin : PinnedState) (force : Bool)
    (tree : InstallationTree) (prompt : Prompt) (lf : Lockfile)
    (out : List PackageInstallSpec) (callLog : List PromptCall)
    (hl : tree.lockfile = .ok lf)
    (h : apply_build_behaviour reqs pin force tree prompt = .ok (out, callLog)) :
    (out.map fun spec => spec.req)
      = reqs.filter fun r => (emittedSpec tree lf pin force prompt r).isSome := by
  unfold apply_build_behaviour at h
  rw [hl] at h
  dsimp only at h
  rw [applyGo_ok_filterMap tree lf pin force prompt reqs out callLog h]
  exact filterMap_map_req tree lf pin force prompt reqs

/-- C8 (witness): the ordering property on a run where the first requirement
is dropped and the second survives. -/
theorem C8_witness :
    ([mkSpec "B" BuildBehaviour.Force PinnedState.Unpinned].map fun spec => spec.req)
      = (["A", "B"].filter fun r =>
          (emittedSpec treeA lfAll .Unpinned false promptNo r).isSome) :=
  C8_thm ["A", "B"] .Unpinned false treeA promptNo lfAll
    [mkSpec "B" .Force .Unpinned] [⟨overwriteMsg "A", false⟩] rfl rfl

/-- A failing tree match query makes the per-requirement step surface the
underlying error (the source panics on it, aborting the call). -/
theorem resolveOne_match_error (tree : InstallationTree) (lf : Lockfile)
    (pin : PinnedState) (force : Bool) (prompt : Prompt) (req : PackageReq)
    (e : Err)
    (hm : tree.match_rocks_and req (fun rock => pin == rock.pinned) = .error e) :
    resolveOne tree lf pin force prompt req = .error e := by
  unfold resolveOne
  rw [hm]

/-- A failing prompt (reached when the effective force flag is false) makes
the per-requirement step surface the underlying error. -/
theorem resolveOne_prompt_error (tree : InstallationTree) (lf : Lockfile)
    (pin : PinnedState) (force : Bool) (prompt : Prompt) (req : PackageReq)
    (m : RockMatches) (e : Err)
    (hm : tree.match_rocks_and req (fun rock => pin == rock.pinned) = .ok m)
    (hf : effectiveForce force lf (existingPackages m) = false)
    (hp : prompt (overwriteMsg req) false = .error e) :
    resolveOne tree lf pin force prompt req = .error e := by
  have hne := isEmpty_false_of_effectiveForce_false force lf (existingPackages m) hf
  unfold resolveOne
  rw [hm]
  dsimp only
  rw [hf, hne]
  simp [hp]

/-- If every requirement before `req` processes successfully and `req` itself
fails, the whole traversal fails with `req`'s error: there is no partial
result and no per-requirement recovery. -/
theorem applyGo_append_error (tree : InstallationTree) (lf : Lockfile)
    (pin : PinnedState) (force : Bool) (prompt : Prompt)
    (reqs1 : List PackageReq) :
    ∀ (req : PackageReq) (reqs2 : List PackageReq) (e : Err),
      (∀ r ∈ reqs1, ∃ res, resolveOne tree lf pin force prompt r = .ok res) →
      resolveOne tree lf pin force prompt req = .error e →
      applyGo tree lf pin force prompt (reqs1 ++ req :: reqs2) = .error e := by
  induction reqs1 with
  | nil =>
    intro req reqs2 e _ hreq
    simp only [List.nil_append]
    unfold applyGo
    rw [hreq]
  | cons r rs ih =>
    intro req reqs2 e hok hreq
    obtain ⟨res, hres⟩ := hok r (List.mem_cons_self r rs)
    obtain ⟨specOpt, calls⟩ := res
    simp only [List.cons_append]
    unfold applyGo
    rw [hres]
    dsimp only
    rw [ih req reqs2 e (fun x hx => hok x (List.mem_cons_of_mem r hx)) hreq]

/-- C7: both error kinds abort the whole resolution call with the underlying
error and no partial plan — (i) an unreadable lockfile, (ii) a failing tree
match query on any requirement reached after successfully processed ones,
and (iii) a failing confirmation prompt on such a requirement, each make the
entire call return exactly that error. -/
theorem C7_thm (tree : InstallationTree) (pin : PinnedState) (force : Bool)
    (prompt : Prompt) (e : Err) :
    (tree.lockfile = .error e →
      ∀ reqs, apply_build_behaviour reqs pin force tree prompt = .error e)
    ∧ (∀ lf reqs1 req reqs2,
        tree.lockfile = .ok lf →
        (∀ r ∈ reqs1, ∃ res, resolveOne tree lf pin force prompt r = .ok res) →
        tree.match_rocks_and req (fun rock => pin == rock.pinned) = .error e →
        apply_build_behaviour (reqs1 ++ req :: reqs2) pin force tree prompt
          = .error e)
    ∧ (∀ lf reqs1 req reqs2 m,
        tree.lockfile = .ok lf →
        (∀ r ∈ reqs1, ∃ res, resolveOne tree lf pin force prompt r = .ok res) →
        tree.match_rocks_and req (fun rock => pin == rock.pinned) = .ok m →
        effectiveForce force lf (existingPackages m) = false →
        prompt (overwriteMsg req) false = .error e →
        apply_build_behaviour (reqs1 ++ req :: reqs2) pin force tree prompt
          = .error e) := by
  refine ⟨?_, ?_, ?_⟩
  · intro he reqs
    unfold apply_build_behaviour
    rw [he]
  · intro lf reqs1 req reqs2 hl hok hm
    unfold apply_build_behaviour
    rw [hl]
    exact applyGo_append_error tree lf pin force prompt reqs1 req reqs2 e hok
      (resolveOne_match_error tree lf pin force prompt req e hm)
  · intro lf reqs1 req reqs2 m hl hok hm hf hp
    unfold apply_build_behaviour
    rw [hl]
    exact applyGo_append_error tree lf pin force prompt reqs1 req reqs2 e hok
      (resolveOne_prompt_error tree lf pin force prompt req m e hm hf hp)

/-- C7 (witness): the three abort scenarios at concrete inputs — unreadable
lockfile, failing match query, and failing prompt (reached because "A"
matches the entrypoint identity `0` with `force = false`). -/
theorem C7_witness :
    apply_build_behaviour ["A"] .Unpinned false treeLockErr promptYes
      = .error "store unreadable"
    ∧ apply_build_behaviour ["A"] .Unpinned false treeMatchErr promptYes
      = .error "match failed"
    ∧ apply_build_behaviour ["A"] .Unpinned false treeA promptErr
      = .error "prompt unavailable" := by
  refine ⟨?_, ?_, ?_⟩
  · exact (C7_thm treeLockErr .Unpinned false promptYes "store unreadable").1
      rfl ["A"]
  · exact (C7_thm treeMatchErr .Unpinned false promptYes "match failed").2.1
      lfNone [] "A" [] rfl (by simp) rfl
  · exact (C7_thm treeA .Unpinned false promptErr "prompt unavailable").2.2
      lfAll [] "A" [] (.Single 0) rfl (by simp) rfl rfl rfl

/-- C9: every emitted install specification carries exactly its requirement,
pin equal to the caller's pin argument, entry type `Entrypoint` and
optionality `Required` (its behaviour field is the computed behaviour by
construction). -/
theorem C9_thm (tree : InstallationTree) (lf : Lockfile) (pin : PinnedState)
    (force : Bool) (prompt : Prompt) (req : PackageReq)
    (spec : PackageInstallSpec) (calls : List PromptCall)
    (h : resolveOne tree lf pin force prompt req = .ok (some spec, calls)) :
    spec.req = req ∧ spec.pin = pin ∧ spec.entry_type = .Entrypoint
    ∧ spec.opt = .Required := by
  rw [resolveOne_some tree lf pin force prompt req spec calls h]
  exact ⟨rfl, rfl, rfl, rfl⟩

/-- C9 (witness): the field property at a concrete emission. -/
theorem C9_witness :
    (mkSpec "C" BuildBehaviour.Force PinnedState.Pinned).req = "C"
    ∧ (mkSpec "C" BuildBehaviour.Force PinnedState.Pinned).pin = .Pinned
    ∧ (mkSpec "C" BuildBehaviour.Force PinnedState.Pinned).entry_type = .Entrypoint
    ∧ (mkSpec "C" BuildBehaviour.Force PinnedState.Pinned).opt = .Required :=
  C9_thm treeNoMatches lfNone .Pinned false promptErr "C"
    (mkSpec "C" .Force .Pinned) [] rfl

/-- Flattening the shaped match result recovers exactly the collected
identities: nothing on no match, the one identity on a single match, and all
identities on multiple matches. -/
theorem existingPackages_rockMatchesOf (rocks : List LocalPackage)
    (sat : PackageReq → LocalPackage → Bool) (req : PackageReq)
    (pred : LocalPackage → Bool) :
    existingPackages (rockMatchesOf rocks sat req pred)
      = matchedIds rocks sat req pred := by
  unfold rockMatchesOf
  generalize matchedIds rocks sat req pred = l
  rcases l with _ | ⟨a, _ | ⟨b, t⟩⟩ <;> rfl

/-- C10: over a concrete installed-package collection, the match set the
resolver uses for a requirement is exactly the identities of the installed
packages that satisfy the requirement and whose pin state equals the
resolution's target pin state — empty on no match, the singleton on one
match, and the full collection on multiple matches. -/
theorem C10_thm (rocks : List LocalPackage)
    (sat : PackageReq → LocalPackage → Bool) (lf : Lockfile)
    (pin : PinnedState) (req : PackageReq) :
    (InstallationTree.ofRocks rocks sat lf).match_rocks_and req
        (fun rock => pin == rock.pinned)
      = .ok (rockMatchesOf rocks sat req fun rock => pin == rock.pinned)
    ∧ existingPackages (rockMatchesOf rocks sat req fun rock => pin == rock.pinned)
      = ((rocks.filter fun rock => sat req rock && (pin == rock.pinned)).map
          fun rock => rock.id) :=
  ⟨rfl, existingPackages_rockMatchesOf rocks sat req _⟩
